import Mathlib

/-!
Shallow embedding of the `price-oracle` Soroban contract
(`contracts/price-oracle/src/{lib,price_data,oracle_node,aggregation,validation}.rs`)
together with proofs about its aggregation, validation, rate-limiting and
reputation logic.

Modelling conventions:
* `u64` and `u32` machine integers are modelled as `Nat`; `saturating_sub` on
  unsigned integers is exactly `Nat` truncated subtraction.  Where an unguarded
  addition or multiplication on `u32` could wrap (reputation counters), the
  embedding keeps an explicit `% 2^32`.
* Soroban `Symbol` is modelled as `String`, `Address` as `Nat`.
* Soroban `Map` is modelled as a function into `Option`; `set` is a pointwise
  functional update.
* `env.ledger().timestamp()` is passed explicitly as a `now : Nat` parameter.
* `caller.require_auth()` is host-level authorization, outside the embedded
  state, and is not modelled.
* Fallible contract entry points return the error `Symbol` and the resulting
  storage state as an explicit pair `Option Symbol × ContractState`, where the
  state component records exactly the storage writes the code performed
  before returning.
-/

namespace PriceOracle

/-- Ledger addresses, modelled as abstract identifiers. -/
abbrev Address := Nat

/-- Soroban symbols (short strings), modelled as `String`. -/
abbrev Symbol := String

/-- Constant `PRICE_STALENESS_THRESHOLD` from `price_data.rs` (5 minutes). -/
def PRICE_STALENESS_THRESHOLD : Nat := 300

/-- Constant `MAX_PRICE_DEVIATION` from `price_data.rs` (10 percent). -/
def MAX_PRICE_DEVIATION : Nat := 10

/-- Constant `MIN_CONFIDENCE_LEVEL` from `price_data.rs`. -/
def MIN_CONFIDENCE_LEVEL : Nat := 70

/-- Constant `MAX_HISTORY_ENTRIES` from `price_data.rs`. -/
def MAX_HISTORY_ENTRIES : Nat := 100

/-- Constant `MIN_STAKE_AMOUNT` from `oracle_node.rs` (1000 XLM in stroops). -/
def MIN_STAKE_AMOUNT : Nat := 10000000000

/-- Constant `MIN_REPUTATION_SCORE` from `oracle_node.rs`. -/
def MIN_REPUTATION_SCORE : Nat := 70

/-- Constant `MAX_SUBMISSIONS_PER_HOUR` from `oracle_node.rs`. -/
def MAX_SUBMISSIONS_PER_HOUR : Nat := 60

/-- Constant `RATE_LIMIT_WINDOW` from `oracle_node.rs` (1 hour in seconds). -/
def RATE_LIMIT_WINDOW : Nat := 3600

/-- Constant `REPUTATION_DECAY_TIME` from `oracle_node.rs` (7 days). -/
def REPUTATION_DECAY_TIME : Nat := 86400 * 7

/-- Constant `MIN_SUBMISSIONS_FOR_REPUTATION` from `oracle_node.rs`. -/
def MIN_SUBMISSIONS_FOR_REPUTATION : Nat := 10

/-- Modulus of `u32` arithmetic. -/
def U32_MOD : Nat := 2 ^ 32

/-- Helper for the Rust pattern `if a > b { a - b } else { b - a }`. -/
def absDiff (a b : Nat) : Nat := if a > b then a - b else b - a

/-- Struct `PriceData` from `price_data.rs`. -/
structure PriceData where
  asset_symbol : Symbol
  price : Nat
  timestamp : Nat
  oracle_node : Address
  confidence : Nat
deriving DecidableEq

/-- Struct `AggregatedPrice` from `price_data.rs`. -/
structure AggregatedPrice where
  asset_symbol : Symbol
  price : Nat
  timestamp : Nat
  num_sources : Nat
  confidence : Nat
  deviation : Nat
deriving DecidableEq

/-- Struct `PriceUpdateRequest` from `price_data.rs`. -/
structure PriceUpdateRequest where
  asset_symbol : Symbol
  price : Nat
  timestamp : Nat
  signature : Symbol
deriving DecidableEq

/-- Method `PriceData::is_stale` from `price_data.rs`. -/
def PriceData.is_stale (s : PriceData) (now : Nat) : Bool :=
  decide (now - s.timestamp > PRICE_STALENESS_THRESHOLD)

/-- Method `PriceData::is_valid` from `price_data.rs`. -/
def PriceData.is_valid (s : PriceData) : Bool :=
  decide (s.price > 0) && decide (s.confidence ≥ MIN_CONFIDENCE_LEVEL)

/-- Method `AggregatedPrice::is_reliable` from `price_data.rs`. -/
def AggregatedPrice.is_reliable (a : AggregatedPrice) : Bool :=
  decide (a.num_sources ≥ 3) && decide (a.confidence ≥ MIN_CONFIDENCE_LEVEL)
    && decide (a.deviation ≤ MAX_PRICE_DEVIATION)

/-- Struct `OracleNode` from `oracle_node.rs`. -/
structure OracleNode where
  address : Address
  reputation_score : Nat
  total_submissions : Nat
  accurate_submissions : Nat
  last_submission_time : Nat
  is_active : Bool
  stake_amount : Nat
  registered_time : Nat
deriving DecidableEq

/-- Struct `NodeRegistration` from `oracle_node.rs`. -/
structure NodeRegistration where
  node_address : Address
  stake_amount : Nat
  metadata : Symbol
deriving DecidableEq

/-- Struct `RateLimitInfo` from `oracle_node.rs`. -/
structure RateLimitInfo where
  node_address : Address
  submission_count : Nat
  window_start : Nat
  last_submission : Nat
deriving DecidableEq

/-- Constructor `OracleNode::new` from `oracle_node.rs`. -/
def OracleNode.new (now : Nat) (address : Address) (stake_amount : Nat) : OracleNode :=
  { address := address
    reputation_score := 100
    total_submissions := 0
    accurate_submissions := 0
    last_submission_time := 0
    is_active := true
    stake_amount := stake_amount
    registered_time := now }

/-- Method `OracleNode::calculate_reputation` from `oracle_node.rs`.  The
`u32` multiplication `accurate_submissions * 100` is kept modulo `2^32`. -/
def OracleNode.calculate_reputation (n : OracleNode) : Nat :=
  if n.total_submissions < MIN_SUBMISSIONS_FOR_REPUTATION then 100
  else min (n.accurate_submissions * 100 % U32_MOD / n.total_submissions) 100

/-- Method `OracleNode::update_reputation` from `oracle_node.rs`, with the
`u32` increments kept modulo `2^32`. -/
def OracleNode.update_reputation (n : OracleNode) (was_accurate : Bool) : OracleNode :=
  let n1 : OracleNode :=
    { n with
      total_submissions := (n.total_submissions + 1) % U32_MOD
      accurate_submissions :=
        if was_accurate then (n.accurate_submissions + 1) % U32_MOD
        else n.accurate_submissions }
  { n1 with reputation_score := n1.calculate_reputation }

/-- Method `OracleNode::is_reputation_stale` from `oracle_node.rs`. -/
def OracleNode.is_reputation_stale (n : OracleNode) (now : Nat) : Bool :=
  decide (now - n.last_submission_time > REPUTATION_DECAY_TIME)

/-- Method `OracleNode::is_eligible` from `oracle_node.rs`. -/
def OracleNode.is_eligible (n : OracleNode) (now : Nat) : Bool :=
  n.is_active && decide (n.stake_amount ≥ MIN_STAKE_AMOUNT)
    && decide (n.reputation_score ≥ MIN_REPUTATION_SCORE)
    && !(n.is_reputation_stale now)

/-- Method `OracleNode::can_submit` from `oracle_node.rs`. -/
def OracleNode.can_submit (n : OracleNode) (now : Nat) (rate_limit : RateLimitInfo) : Bool :=
  if now - rate_limit.window_start ≥ RATE_LIMIT_WINDOW then true
  else decide (rate_limit.submission_count < MAX_SUBMISSIONS_PER_HOUR)

/-- Method `OracleNode::slash_stake` from `oracle_node.rs`. -/
def OracleNode.slash_stake (n : OracleNode) (slash_amount : Nat) : OracleNode :=
  let stake := n.stake_amount - slash_amount
  if stake < MIN_STAKE_AMOUNT then { n with stake_amount := stake, is_active := false }
  else { n with stake_amount := stake }

/-- Constructor `RateLimitInfo::new` from `oracle_node.rs`. -/
def RateLimitInfo.new (now : Nat) (node_address : Address) : RateLimitInfo :=
  { node_address := node_address
    submission_count := 0
    window_start := now
    last_submission := 0 }

/-- Method `RateLimitInfo::record_submission` from `oracle_node.rs`: the first
component is the returned `bool`, the second the mutated `self`. -/
def RateLimitInfo.record_submission (r : RateLimitInfo) (now : Nat) : Bool × RateLimitInfo :=
  let r1 :=
    if now - r.window_start ≥ RATE_LIMIT_WINDOW then
      { r with window_start := now, submission_count := 0 }
    else r
  if r1.submission_count ≥ MAX_SUBMISSIONS_PER_HOUR then (false, r1)
  else (true, { r1 with submission_count := r1.submission_count + 1, last_submission := now })

/-- Storage map `DataKey::OracleNodes`, a Soroban `Map<Address, OracleNode>`. -/
abbrev NodeMap := Address → Option OracleNode

/-- Storage map `DataKey::RateLimits`, a Soroban `Map<Address, RateLimitInfo>`. -/
abbrev RateLimitMap := Address → Option RateLimitInfo

/-- Median computation shared by `remove_outliers` and
`calculate_weighted_median` in `aggregation.rs`: on an even-length list the
floor average of the two middle elements of the sorted vector, otherwise the
middle element; out-of-range indices default to 0 exactly as the code's
`unwrap_or(&0)` does. -/
def medianOfSorted (prices : List Nat) : Nat :=
  if prices.length % 2 = 0 then
    let mid := prices.length / 2
    (prices.getD (mid - 1) 0 + prices.getD mid 0) / 2
  else prices.getD (prices.length / 2) 0

/-- Function `PriceAggregator::remove_outliers` from `aggregation.rs`.  The
Rust `Vec::sort` is modelled by `List.insertionSort (· ≤ ·)` (any correct
ascending sort of naturals yields the same list). -/
def remove_outliers (submissions : List PriceData) : List PriceData :=
  if submissions.length < 3 then submissions
  else
    let prices := List.insertionSort (· ≤ ·) (submissions.map PriceData.price)
    let median := medianOfSorted prices
    let max_deviation := median * MAX_PRICE_DEVIATION / 100
    submissions.filter (fun s => decide (absDiff s.price median ≤ max_deviation))

/-- Loop body predicate of `PriceAggregator::filter_valid_submissions`: a
submission is kept when it is valid, not stale, and its node is registered and
eligible. -/
def submissionPasses (now : Nat) (oracle_nodes : NodeMap) (s : PriceData) : Bool :=
  s.is_valid && !(s.is_stale now) &&
    (match oracle_nodes s.oracle_node with
     | some node => node.is_eligible now
     | none => false)

/-- Function `PriceAggregator::filter_valid_submissions` from `aggregation.rs`. -/
def filter_valid_submissions (now : Nat) (submissions : List PriceData)
    (oracle_nodes : NodeMap) : List PriceData :=
  remove_outliers (submissions.filter (submissionPasses now oracle_nodes))

/-- Function `PriceAggregator::calculate_node_weight` from `aggregation.rs`. -/
def calculate_node_weight (node : OracleNode) (submission : PriceData) : Nat :=
  let base_weight := 1
  let reputation_multiplier := max node.reputation_score 1 / 10
  let confidence_multiplier := max submission.confidence 1 / 20
  let stake_multiplier := min (max (node.stake_amount / 10000000000) 1) 5
  base_weight * reputation_multiplier * confidence_multiplier * stake_multiplier

/-- The weighted multiset built by the loop of
`PriceAggregator::calculate_weighted_median`: each submission whose node is
registered contributes its price `calculate_node_weight` times. -/
def weightedPrices (submissions : List PriceData) (oracle_nodes : NodeMap) : List Nat :=
  submissions.flatMap (fun s =>
    match oracle_nodes s.oracle_node with
    | some node => List.replicate (calculate_node_weight node s) s.price
    | none => [])

/-- Function `PriceAggregator::calculate_weighted_median` from `aggregation.rs`. -/
def calculate_weighted_median (submissions : List PriceData)
    (oracle_nodes : NodeMap) : Except Symbol Nat :=
  if submissions.isEmpty then Except.error "no_submissions"
  else
    let weighted_prices := weightedPrices submissions oracle_nodes
    if weighted_prices.isEmpty then Except.error "no_weighted_data"
    else Except.ok (medianOfSorted (List.insertionSort (· ≤ ·) weighted_prices))

/-- Function `PriceAggregator::calculate_confidence` from `aggregation.rs`. -/
def calculate_confidence (submissions : List PriceData) (oracle_nodes : NodeMap) : Nat :=
  if submissions.isEmpty then 0
  else
    let total_confidence : Nat := (submissions.map (fun s =>
      match oracle_nodes s.oracle_node with
      | some node => s.confidence * calculate_node_weight node s
      | none => (0 : Nat))).sum
    let total_weight : Nat := (submissions.map (fun s =>
      match oracle_nodes s.oracle_node with
      | some node => calculate_node_weight node s
      | none => (0 : Nat))).sum
    if total_weight = 0 then 0
    else
      let weighted_confidence := total_confidence / total_weight
      let source_bonus :=
        if submissions.length = 1 then 0
        else if submissions.length = 2 then 5
        else if 3 ≤ submissions.length ∧ submissions.length ≤ 5 then 10
        else 15
      min (weighted_confidence + source_bonus) 100

/-- Function `PriceAggregator::calculate_price_deviation` from `aggregation.rs`. -/
def calculate_price_deviation (submissions : List PriceData) : Nat :=
  if submissions.length < 2 then 0
  else
    let prices := submissions.map PriceData.price
    let avg_price := prices.sum / prices.length
    if avg_price = 0 then 100
    else
      let max_deviation :=
        prices.foldl (fun m p => max m (absDiff p avg_price * 100 / avg_price)) 0
      min max_deviation 100

/-- Constructor `AggregatedPrice::new` from `price_data.rs`. -/
def AggregatedPrice.new (now : Nat) (asset_symbol : Symbol)
    (price num_sources confidence deviation : Nat) : AggregatedPrice :=
  { asset_symbol := asset_symbol
    price := price
    timestamp := now
    num_sources := num_sources
    confidence := confidence
    deviation := deviation }

/-- Function `PriceAggregator::aggregate_prices` from `aggregation.rs`. -/
def aggregate_prices (now : Nat) (asset_symbol : Symbol)
    (price_submissions : List PriceData) (oracle_nodes : NodeMap) :
    Except Symbol AggregatedPrice :=
  if price_submissions.isEmpty then Except.error "no_price_data"
  else
    let valid_submissions := filter_valid_submissions now price_submissions oracle_nodes
    if valid_submissions.isEmpty then Except.error "no_valid_submissions"
    else
      match calculate_weighted_median valid_submissions oracle_nodes with
      | Except.error e => Except.error e
      | Except.ok aggregated_price =>
        let confidence := calculate_confidence valid_submissions oracle_nodes
        let deviation := calculate_price_deviation valid_submissions
        let result := AggregatedPrice.new now asset_symbol aggregated_price
          valid_submissions.length confidence deviation
        if result.is_reliable then Except.ok result
        else Except.error "unreliable_price"

/-- Function `PriceAggregator::is_price_stale` from `aggregation.rs`
(30-minute threshold for fallback prices). -/
def is_price_stale (now : Nat) (price : AggregatedPrice) : Bool :=
  decide (now - price.timestamp > 1800)

/-- Function `PriceAggregator::get_fallback_price` from `aggregation.rs`:
scan the retained history newest-first for the first reliable, non-stale
entry. -/
def get_fallback_price (now : Nat) (asset_symbol : Symbol)
    (price_history : Symbol → Option (List AggregatedPrice)) : Except Symbol Nat :=
  match price_history asset_symbol with
  | some history =>
    match history.reverse.find? (fun p => p.is_reliable && !(is_price_stale now p)) with
    | some p => Except.ok p.price
    | none => Except.error "no_fallback_available"
  | none => Except.error "no_fallback_available"

/-- Function `PriceAggregator::update_oracle_accuracy` from `aggregation.rs`. -/
def update_oracle_accuracy (oracle_nodes : NodeMap) (submission : PriceData)
    (aggregated_price : Nat) : NodeMap :=
  match oracle_nodes submission.oracle_node with
  | some node =>
    let price_diff := absDiff submission.price aggregated_price
    let deviation_percentage :=
      if aggregated_price > 0 then price_diff * 100 / aggregated_price else 100
    let was_accurate := decide (deviation_percentage ≤ 5)
    fun a => if a = submission.oracle_node then
      some (node.update_reputation was_accurate) else oracle_nodes a
  | none => oracle_nodes

/-- Constant `MAX_PRICE` from `validation.rs`. -/
def MAX_PRICE : Nat := 10000000000000

/-- Constant `MIN_PRICE` from `validation.rs`. -/
def MIN_PRICE : Nat := 1

/-- Constant `FUTURE_TOLERANCE` from `validation.rs`. -/
def FUTURE_TOLERANCE : Nat := 60

/-- Function `ValidationEngine::validate_price_data` from `validation.rs`. -/
def validate_price_data (request : PriceUpdateRequest) : Except Symbol Unit :=
  if request.price = 0 then Except.error "invalid_price_zero"
  else if request.price > MAX_PRICE then Except.error "price_too_high"
  else if request.price < MIN_PRICE then Except.error "price_too_low"
  else if request.asset_symbol.isEmpty then Except.error "invalid_asset_symbol"
  else Except.ok ()

/-- Function `ValidationEngine::validate_timestamp` from `validation.rs`. -/
def validate_timestamp (now : Nat) (timestamp : Nat) : Except Symbol Unit :=
  if now - timestamp > PRICE_STALENESS_THRESHOLD then Except.error "timestamp_too_old"
  else if timestamp > now + FUTURE_TOLERANCE then Except.error "timestamp_in_future"
  else Except.ok ()

/-- Function `ValidationEngine::validate_signature` from `validation.rs`. -/
def validate_signature (request : PriceUpdateRequest) : Except Symbol Unit :=
  if request.signature.isEmpty then Except.error "missing_signature"
  else if request.signature.length < 64 then Except.error "invalid_signature_format"
  else Except.ok ()

/-- Function `ValidationEngine::validate_price_update` from `validation.rs`. -/
def validate_price_update (now : Nat) (request : PriceUpdateRequest)
    (oracle_nodes : NodeMap) (rate_limits : RateLimitMap) (submitter : Address) :
    Except Symbol Unit :=
  match oracle_nodes submitter with
  | none => Except.error "unregistered_node"
  | some node =>
    if !(node.is_eligible now) then Except.error "node_not_eligible"
    else
      let rate_ok :=
        match rate_limits submitter with
        | some rate_limit => node.can_submit now rate_limit
        | none => true
      if !rate_ok then Except.error "rate_limit_exceeded"
      else do
        validate_price_data request
        validate_timestamp now request.timestamp
        validate_signature request

/-- Constant `RECENT_THRESHOLD` from `validation.rs` (24 hours). -/
def RECENT_THRESHOLD : Nat := 86400

/-- Function `ValidationEngine::get_recent_valid_prices` from `validation.rs`:
walk the history newest-first, stop at the first entry older than 24 hours,
keep the prices of valid entries. -/
def get_recent_valid_prices (now : Nat) (history : List PriceData) : List Nat :=
  ((history.reverse.takeWhile (fun p => decide (now - p.timestamp ≤ RECENT_THRESHOLD))).filter
    PriceData.is_valid).map PriceData.price

/-- Function `ValidationEngine::calculate_historical_confidence` from
`validation.rs`, with its step table of deviation tiers. -/
def calculate_historical_confidence (recent_prices : List Nat) (new_price : Nat) : Nat :=
  if recent_prices.isEmpty then 50
  else
    let avg_price := recent_prices.sum / recent_prices.length
    if avg_price = 0 then 0
    else
      let deviation := absDiff new_price avg_price
      let deviation_percentage := deviation * 100 / avg_price
      if deviation_percentage ≤ 1 then 95
      else if deviation_percentage ≤ 3 then 90
      else if deviation_percentage ≤ 5 then 85
      else if deviation_percentage ≤ 8 then 80
      else if deviation_percentage ≤ 12 then 75
      else if deviation_percentage ≤ 18 then 70
      else if deviation_percentage ≤ 25 then 65
      else if deviation_percentage ≤ 35 then 60
      else if deviation_percentage ≤ 50 then 55
      else 50

/-- Function `ValidationEngine::validate_against_historical_data` from
`validation.rs`. -/
def validate_against_historical_data (now : Nat) (new_price : Nat)
    (asset_symbol : Symbol) (price_history : Symbol → Option (List PriceData)) :
    Except Symbol Nat :=
  match price_history asset_symbol with
  | none => Except.ok 50
  | some history =>
    if history.isEmpty then Except.ok 50
    else
      let recent_prices := get_recent_valid_prices now history
      if recent_prices.isEmpty then Except.ok 50
      else Except.ok (calculate_historical_confidence recent_prices new_price)

/-- Struct `ContractConfig` from `lib.rs`. -/
structure ContractConfig where
  admin : Address
  emergency_stop : Bool
  min_oracle_nodes : Nat
  price_update_interval : Nat
deriving DecidableEq

/-- The instance storage of the contract, one field per `DataKey` entry of
`lib.rs` (the `Admin` key holds the whole `ContractConfig`). -/
structure ContractState where
  config : Option ContractConfig
  oracleNodes : NodeMap
  rateLimits : RateLimitMap
  priceData : Symbol → Option (List PriceData)
  aggregatedPrices : Symbol → Option AggregatedPrice
  priceHistory : Symbol → Option (List AggregatedPrice)
  supportedAssets : List Symbol

/-- Function `NodeManager::register_node` from `oracle_node.rs`. -/
def register_node (now : Nat) (nodes : NodeMap) (rate_limits : RateLimitMap)
    (registration : NodeRegistration) : Except Symbol (NodeMap × RateLimitMap) :=
  if (nodes registration.node_address).isSome then Except.error "node_already_registered"
  else if registration.stake_amount < MIN_STAKE_AMOUNT then Except.error "insufficient_stake"
  else
    Except.ok
      (fun a => if a = registration.node_address then
         some (OracleNode.new now registration.node_address registration.stake_amount)
       else nodes a,
       fun a => if a = registration.node_address then
         some (RateLimitInfo.new now registration.node_address)
       else rate_limits a)

/-- Function `NodeManager::deactivate_node` from `oracle_node.rs`. -/
def deactivate_node (nodes : NodeMap) (node_address : Address) : Except Symbol NodeMap :=
  match nodes node_address with
  | some node =>
    Except.ok (fun a => if a = node_address then
      some { node with is_active := false } else nodes a)
  | none => Except.error "node_not_found"

/-- Helper `PriceOracle::check_admin` from `lib.rs`. -/
def checkAdmin (s : ContractState) (caller : Address) : Except Symbol Unit :=
  match s.config with
  | none => Except.error "not_initialized"
  | some config =>
    if caller ≠ config.admin then Except.error "unauthorized" else Except.ok ()

/-- Helper `PriceOracle::check_emergency_stop` from `lib.rs`. -/
def checkEmergencyStop (s : ContractState) : Except Symbol Unit :=
  match s.config with
  | none => Except.error "not_initialized"
  | some config =>
    if config.emergency_stop then Except.error "emergency_stop_active" else Except.ok ()

/-- Helper `PriceOracle::cleanup_old_price_data` from `lib.rs` (24-hour
retention filter). -/
def cleanup_old_price_data (now : Nat) (submissions : List PriceData) : List PriceData :=
  submissions.filter (fun p => decide (now - p.timestamp ≤ 86400))

/-- Helper `PriceOracle::filter_recent_submissions` from `lib.rs`. -/
def filter_recent_submissions (now : Nat) (submissions : List PriceData) : List PriceData :=
  submissions.filter (fun p => decide (now - p.timestamp ≤ PRICE_STALENESS_THRESHOLD))

/-- Helper `PriceOracle::update_price_history` from `lib.rs`: append the new
aggregate and keep only the last `MAX_HISTORY_ENTRIES` entries. -/
def updatePriceHistory (s : ContractState) (asset_symbol : Symbol)
    (aggregated_price : AggregatedPrice) : ContractState :=
  let history := (s.priceHistory asset_symbol).getD [] ++ [aggregated_price]
  let history :=
    if history.length > MAX_HISTORY_ENTRIES then
      history.drop (history.length - MAX_HISTORY_ENTRIES)
    else history
  { s with priceHistory := fun a =>
      if a = asset_symbol then some history else s.priceHistory a }

/-- Helper `PriceOracle::try_aggregate_prices` from `lib.rs`. -/
def tryAggregatePrices (now : Nat) (s : ContractState) (asset_symbol : Symbol) :
    Option Symbol × ContractState :=
  let price_submissions := (s.priceData asset_symbol).getD []
  let nodes := s.oracleNodes
  let recent_submissions := filter_recent_submissions now price_submissions
  match s.config with
  | none => (some "not_initialized", s)
  | some config =>
    if recent_submissions.length < config.min_oracle_nodes then (none, s)
    else
      match aggregate_prices now asset_symbol recent_submissions nodes with
      | Except.ok aggregated_price =>
        let s1 := { s with aggregatedPrices := fun a =>
          if a = asset_symbol then some aggregated_price else s.aggregatedPrices a }
        let s2 := updatePriceHistory s1 asset_symbol aggregated_price
        let updated_nodes := recent_submissions.foldl
          (fun m sub => update_oracle_accuracy m sub aggregated_price.price) nodes
        (none, { s2 with oracleNodes := updated_nodes })
      | Except.error e => (some e, s)

/-- Entry point `PriceOracle::register_oracle_node` from `lib.rs`. -/
def registerOracleNode (now : Nat) (s : ContractState)
    (registration : NodeRegistration) : Option Symbol × ContractState :=
  match checkEmergencyStop s with
  | Except.error e => (some e, s)
  | Except.ok _ =>
    match register_node now s.oracleNodes s.rateLimits registration with
    | Except.error e => (some e, s)
    | Except.ok (nodes, rate_limits) =>
      (none, { s with oracleNodes := nodes, rateLimits := rate_limits })

/-- Tail of `PriceOracle::submit_price` after the rate-limit update: store the
new `PriceData` (its confidence computed against the stored per-asset
submission history) and attempt aggregation.  The Rust call site reads the
`Vec<PriceData>` stored under `DataKey::PriceData(asset)` as the history map
argument of `validate_against_historical_data`; the lookup is modelled as
yielding exactly the stored submission list for that asset. -/
def submitPriceStore (now : Nat) (s : ContractState) (caller : Address)
    (price_update : PriceUpdateRequest) (rate_limits2 : RateLimitMap) :
    Option Symbol × ContractState :=
  let stored := (s.priceData price_update.asset_symbol).getD []
  let histMap : Symbol → Option (List PriceData) := fun sym =>
    if sym = price_update.asset_symbol then some stored else none
  let confidence := (validate_against_historical_data now price_update.price
    price_update.asset_symbol histMap).toOption.getD 50
  let price_data : PriceData :=
    { asset_symbol := price_update.asset_symbol
      price := price_update.price
      timestamp := now
      oracle_node := caller
      confidence := confidence }
  let price_submissions := cleanup_old_price_data now (stored ++ [price_data])
  let s1 := { s with
    priceData := fun a =>
      if a = price_update.asset_symbol then some price_submissions else s.priceData a
    rateLimits := rate_limits2 }
  tryAggregatePrices now s1 price_update.asset_symbol

/-- Entry point `PriceOracle::submit_price` from `lib.rs`. -/
def submitPrice (now : Nat) (s : ContractState) (caller : Address)
    (price_update : PriceUpdateRequest) : Option Symbol × ContractState :=
  match checkEmergencyStop s with
  | Except.error e => (some e, s)
  | Except.ok _ =>
    match validate_price_update now price_update s.oracleNodes s.rateLimits caller with
    | Except.error e => (some e, s)
    | Except.ok _ =>
      match s.rateLimits caller with
      | some rate_limit =>
        let out := rate_limit.record_submission now
        if !out.fst then (some "rate_limit_exceeded", s)
        else submitPriceStore now s caller price_update
          (fun a => if a = caller then some out.snd else s.rateLimits a)
      | none => submitPriceStore now s caller price_update s.rateLimits

/-- Entry point `PriceOracle::get_price` from `lib.rs`. -/
def getPrice (now : Nat) (s : ContractState) (asset_symbol : Symbol) :
    Except Symbol AggregatedPrice :=
  match checkEmergencyStop s with
  | Except.error e => Except.error e
  | Except.ok _ =>
    match s.aggregatedPrices asset_symbol with
    | some aggregated_price =>
      if !aggregated_price.is_reliable then Except.error "unreliable_price"
      else if now - aggregated_price.timestamp > PRICE_STALENESS_THRESHOLD then
        Except.error "stale_price"
      else Except.ok aggregated_price
    | none => Except.error "price_not_available"

/-- Entry point `PriceOracle::get_fallback_price` from `lib.rs`.  The Rust
code reads the `Vec<AggregatedPrice>` stored under `DataKey::PriceHistory`
as the history map argument; the lookup is modelled as yielding exactly the
stored history list for that asset. -/
def getFallbackPrice (now : Nat) (s : ContractState) (asset_symbol : Symbol) :
    Except Symbol Nat :=
  match checkEmergencyStop s with
  | Except.error e => Except.error e
  | Except.ok _ =>
    get_fallback_price now asset_symbol
      (fun sym => if sym = asset_symbol then
         some ((s.priceHistory asset_symbol).getD []) else none)

/-- Entry point `PriceOracle::get_oracle_node_info` from `lib.rs`. -/
def getOracleNodeInfo (s : ContractState) (node_address : Address) : Option OracleNode :=
  s.oracleNodes node_address

/-- Entry point `PriceOracle::get_supported_assets` from `lib.rs`. -/
def getSupportedAssets (s : ContractState) : List Symbol :=
  s.supportedAssets

/-- Entry point `PriceOracle::get_price_history` from `lib.rs`. -/
def getPriceHistory (s : ContractState) (asset_symbol : Symbol) (limit : Nat) :
    List AggregatedPrice :=
  let history := (s.priceHistory asset_symbol).getD []
  let limit := min limit MAX_HISTORY_ENTRIES
  let start_index := if history.length > limit then history.length - limit else 0
  history.drop start_index

/-- Entry point `PriceOracle::deactivate_oracle_node` from `lib.rs`. -/
def deactivateOracleNode (s : ContractState) (caller : Address)
    (node_address : Address) : Option Symbol × ContractState :=
  match checkAdmin s caller with
  | Except.error e => (some e, s)
  | Except.ok _ =>
    match deactivate_node s.oracleNodes node_address with
    | Except.error e => (some e, s)
    | Except.ok nodes => (none, { s with oracleNodes := nodes })

/-- Weight formula as the spec words it: base weight 1, reputation multiplier
`clamp(reputation/10, ≥1)`, confidence multiplier `clamp(confidence/20, ≥1)`,
stake multiplier `clamp(stake/1000-unit, 1..5)`. -/
def specNodeWeight (node : OracleNode) (submission : PriceData) : Nat :=
  1 * max (node.reputation_score / 10) 1 * max (submission.confidence / 20) 1
    * min (max (node.stake_amount / 10000000000) 1) 5

/-- Historical-confidence scoring as the spec words it: take the last-24h valid
prices (newest first, stopping at the first too-old entry), compute their mean,
map the percentage deviation of the new price from that mean through the fixed
step table, and default to 50 with no usable history. -/
def specHistoricalConfidence (now new_price : Nat) (history : List PriceData) : Nat :=
  let recent := ((history.reverse.takeWhile
      (fun p => decide (now - p.timestamp ≤ RECENT_THRESHOLD))).filter
    PriceData.is_valid).map PriceData.price
  if recent.isEmpty then 50
  else
    let mean := recent.sum / recent.length
    let pct := absDiff new_price mean * 100 / mean
    if pct ≤ 1 then 95
    else if pct ≤ 3 then 90
    else if pct ≤ 5 then 85
    else if pct ≤ 8 then 80
    else if pct ≤ 12 then 75
    else if pct ≤ 18 then 70
    else if pct ≤ 25 then 65
    else if pct ≤ 35 then 60
    else if pct ≤ 50 then 55
    else 50

/-- Predicate for the C1 invariant: every stored submission carries the default
historical confidence 50. -/
def allConf50 (l : List PriceData) : Prop := ∀ p ∈ l, p.confidence = 50

theorem length_le_sum_of_one_le (l : List Nat) (h : ∀ x ∈ l, 1 ≤ x) :
    l.length ≤ l.sum := by
  induction l with
  | nil => simp
  | cons a t ih =>
    simp only [List.length_cons, List.sum_cons]
    have ha := h a (by simp)
    have ht := ih (fun x hx => h x (by simp [hx]))
    omega

theorem mem_remove_outliers {s : PriceData} {l : List PriceData}
    (h : s ∈ remove_outliers l) : s ∈ l := by
  unfold remove_outliers at h
  split at h
  · exact h
  · exact (List.mem_filter.mp h).1

theorem mem_weightedPrices {x : Nat} {subs : List PriceData} {nodes : NodeMap}
    (h : x ∈ weightedPrices subs nodes) : ∃ s ∈ subs, x = s.price := by
  unfold weightedPrices at h
  rcases List.mem_flatMap.mp h with ⟨s, hs, hx⟩
  refine ⟨s, hs, ?_⟩
  cases hnode : nodes s.oracle_node with
  | none => rw [hnode] at hx; simp at hx
  | some node => rw [hnode] at hx; exact (List.mem_replicate.mp hx).2

theorem le_medianOfSorted {l : List Nat} (hne : l ≠ []) {b : Nat}
    (hb : ∀ x ∈ l, b ≤ x) : b ≤ medianOfSorted l := by
  have hlen : 0 < l.length := List.length_pos.mpr hne
  unfold medianOfSorted
  split
  · have hmid : l.length / 2 < l.length := Nat.div_lt_self hlen (by norm_num)
    have h1 : l.length / 2 - 1 < l.length := by omega
    show b ≤ (l.getD (l.length / 2 - 1) 0 + l.getD (l.length / 2) 0) / 2
    rw [List.getD_eq_getElem l 0 h1, List.getD_eq_getElem l 0 hmid]
    have ha := hb _ (List.getElem_mem h1)
    have hc := hb _ (List.getElem_mem hmid)
    omega
  · have hmid : l.length / 2 < l.length := Nat.div_lt_self hlen (by norm_num)
    rw [List.getD_eq_getElem l 0 hmid]
    exact hb _ (List.getElem_mem hmid)

theorem medianOfSorted_le {l : List Nat} (hne : l ≠ []) {b : Nat}
    (hb : ∀ x ∈ l, x ≤ b) : medianOfSorted l ≤ b := by
  have hlen : 0 < l.length := List.length_pos.mpr hne
  unfold medianOfSorted
  split
  · have hmid : l.length / 2 < l.length := Nat.div_lt_self hlen (by norm_num)
    have h1 : l.length / 2 - 1 < l.length := by omega
    show (l.getD (l.length / 2 - 1) 0 + l.getD (l.length / 2) 0) / 2 ≤ b
    rw [List.getD_eq_getElem l 0 h1, List.getD_eq_getElem l 0 hmid]
    have ha := hb _ (List.getElem_mem h1)
    have hc := hb _ (List.getElem_mem hmid)
    omega
  · have hmid : l.length / 2 < l.length := Nat.div_lt_self hlen (by norm_num)
    rw [List.getD_eq_getElem l 0 hmid]
    exact hb _ (List.getElem_mem hmid)

theorem recent_prices_one_le (now : Nat) (history : List PriceData) :
    ∀ x ∈ get_recent_valid_prices now history, 1 ≤ x := by
  intro x hx
  unfold get_recent_valid_prices at hx
  rcases List.mem_map.mp hx with ⟨p, hp, rfl⟩
  have hv := (List.mem_filter.mp hp).2
  unfold PriceData.is_valid at hv
  simp only [Bool.and_eq_true, decide_eq_true_eq] at hv
  omega

theorem recent_valid_nil_of_conf50 (now : Nat) (l : List PriceData)
    (h : allConf50 l) : get_recent_valid_prices now l = [] := by
  unfold get_recent_valid_prices
  have hf : (l.reverse.takeWhile
      (fun p => decide (now - p.timestamp ≤ RECENT_THRESHOLD))).filter
      PriceData.is_valid = [] := by
    rw [List.filter_eq_nil_iff]
    intro p hp
    have hmem : p ∈ l := List.mem_reverse.mp ((List.takeWhile_sublist _).mem hp)
    have hc := h p hmem
    simp [PriceData.is_valid, hc, MIN_CONFIDENCE_LEVEL]
  rw [hf]
  rfl

theorem filter_passes_conf50 (now : Nat) (nodes : NodeMap) (subs : List PriceData)
    (h : allConf50 subs) : subs.filter (submissionPasses now nodes) = [] := by
  rw [List.filter_eq_nil_iff]
  intro p hp
  have hc := h p hp
  simp [submissionPasses, PriceData.is_valid, hc, MIN_CONFIDENCE_LEVEL]

theorem filter_valid_nil_of_conf50 (now : Nat) (subs : List PriceData)
    (nodes : NodeMap) (h : allConf50 subs) :
    filter_valid_submissions now subs nodes = [] := by
  unfold filter_valid_submissions
  rw [filter_passes_conf50 now nodes subs h]
  rfl

theorem tryAggregate_priceData (now : Nat) (s : ContractState) (asset : Symbol) :
    (tryAggregatePrices now s asset).2.priceData = s.priceData := by
  unfold tryAggregatePrices
  split
  · rfl
  · dsimp only
    split
    · rfl
    · split
      · simp [updatePriceHistory]
      · rfl

/-- C10: for every node and every time, a stake below `MIN_STAKE_AMOUNT`
makes `is_eligible` return `false`, regardless of reputation, activity flag,
or last submission time. -/
theorem low_stake_never_eligible (now : Nat) (n : OracleNode)
    (h : n.stake_amount < MIN_STAKE_AMOUNT) : n.is_eligible now = false := by
  have hd : decide (n.stake_amount ≥ MIN_STAKE_AMOUNT) = false :=
    decide_eq_false (by omega)
  simp [OracleNode.is_eligible, hd]

/-- Witness for C10 at a concrete node one stroop short of the minimum
stake, maximal reputation, active, fresh submission time. -/
theorem low_stake_never_eligible_witness :
    (OracleNode.new 0 5 9999999999).stake_amount < MIN_STAKE_AMOUNT ∧
    (OracleNode.new 0 5 9999999999).is_eligible 0 = false :=
  ⟨by decide, low_stake_never_eligible 0 (OracleNode.new 0 5 9999999999) (by decide)⟩

/-- C4: `remove_outliers` keeps lists shorter than 3 unchanged, and otherwise
keeps exactly the submissions whose absolute deviation from the unweighted
median (floor-average of the two middle sorted prices on even length) does not
exceed 10 percent of that median — `10 * deviation ≤ median` is the exact
integer form of "deviation does not exceed 10% of the median". -/
theorem remove_outliers_spec (subs : List PriceData) :
    remove_outliers subs =
      if 3 ≤ subs.length then
        subs.filter (fun s => decide (10 * absDiff s.price
          (medianOfSorted (List.insertionSort (· ≤ ·) (subs.map PriceData.price))) ≤
          medianOfSorted (List.insertionSort (· ≤ ·) (subs.map PriceData.price))))
      else subs := by
  unfold remove_outliers
  by_cases h : subs.length < 3
  · rw [if_pos h, if_neg (by omega)]
  · rw [if_neg h, if_pos (by omega)]
    apply List.filter_congr
    intro s _
    simp only [decide_eq_decide, MAX_PRICE_DEVIATION]
    rw [Nat.le_div_iff_mul_le (by norm_num : (0 : Nat) < 100)]
    omega

/-- C5: `record_submission` resets the window when an hour has elapsed,
rejects exactly when the post-reset count has reached
`MAX_SUBMISSIONS_PER_HOUR`, on acceptance increments the count and stamps
`last_submission`, and preserves the bound `submission_count ≤ 60`. -/
theorem record_submission_spec (now : Nat) (r : RateLimitInfo)
    (h : r.submission_count ≤ MAX_SUBMISSIONS_PER_HOUR) :
    ((r.record_submission now).fst = false ↔
      MAX_SUBMISSIONS_PER_HOUR ≤
        (if RATE_LIMIT_WINDOW ≤ now - r.window_start then 0 else r.submission_count)) ∧
    ((r.record_submission now).fst = true →
      (r.record_submission now).snd.submission_count =
        (if RATE_LIMIT_WINDOW ≤ now - r.window_start then 0 else r.submission_count) + 1 ∧
      (r.record_submission now).snd.last_submission = now ∧
      (r.record_submission now).snd.window_start =
        (if RATE_LIMIT_WINDOW ≤ now - r.window_start then now else r.window_start)) ∧
    (r.record_submission now).snd.submission_count ≤ MAX_SUBMISSIONS_PER_HOUR := by
  unfold RateLimitInfo.record_submission
  by_cases hr : RATE_LIMIT_WINDOW ≤ now - r.window_start
  · rw [if_pos (show now - r.window_start ≥ RATE_LIMIT_WINDOW from hr)]
    simp only [if_pos hr]
    simp [MAX_SUBMISSIONS_PER_HOUR]
  · rw [if_neg (show ¬ now - r.window_start ≥ RATE_LIMIT_WINDOW from hr)]
    simp only [if_neg hr]
    by_cases hc : r.submission_count ≥ MAX_SUBMISSIONS_PER_HOUR
    · rw [if_pos hc]
      simp only [MAX_SUBMISSIONS_PER_HOUR] at *
      refine ⟨by simpa using hc, by simp, by omega⟩
    · rw [if_neg hc]
      simp only [MAX_SUBMISSIONS_PER_HOUR] at *
      refine ⟨by simpa using hc, fun _ => ⟨by simp, by simp, by simp⟩, by simp; omega⟩

/-- Witness for C5 at a concrete in-window state with count 59: the call is
accepted, the count becomes 60, and the bound holds. -/
theorem record_submission_spec_witness :
    (⟨1, 59, 1000, 0⟩ : RateLimitInfo).submission_count ≤ MAX_SUBMISSIONS_PER_HOUR ∧
    ((⟨1, 59, 1000, 0⟩ : RateLimitInfo).record_submission 2000).snd.submission_count ≤
      MAX_SUBMISSIONS_PER_HOUR :=
  ⟨by decide, (record_submission_spec 2000 ⟨1, 59, 1000, 0⟩ (by decide)).2.2⟩

/-- Reputation invariant of the spec: the score is 100 below
`MIN_SUBMISSIONS_FOR_REPUTATION` total submissions and
`min(100, accurate*100/total)` from then on. -/
def repInvariant (n : OracleNode) : Prop :=
  n.reputation_score =
    if n.total_submissions < MIN_SUBMISSIONS_FOR_REPUTATION then 100
    else min 100 (n.accurate_submissions * 100 / n.total_submissions)

/-- C7: `update_reputation` increments `total_submissions`, increments
`accurate_submissions` exactly on accurate outcomes, and re-establishes the
reputation invariant (in the overflow-free range of the `u32` counters); the
invariant is also preserved by `slash_stake` and holds for a fresh node. -/
theorem update_reputation_invariant (n : OracleNode) (was_accurate : Bool)
    (slash_amount now addr stake : Nat)
    (h1 : n.total_submissions + 1 < U32_MOD)
    (h2 : (n.accurate_submissions + 1) * 100 < U32_MOD) :
    ((n.update_reputation was_accurate).total_submissions = n.total_submissions + 1 ∧
     (n.update_reputation was_accurate).accurate_submissions =
       n.accurate_submissions + (if was_accurate then 1 else 0) ∧
     repInvariant (n.update_reputation was_accurate)) ∧
    (repInvariant n → repInvariant (n.slash_stake slash_amount)) ∧
    repInvariant (OracleNode.new now addr stake) := by
  have htot : (n.total_submissions + 1) % U32_MOD = n.total_submissions + 1 :=
    Nat.mod_eq_of_lt h1
  have hacc : (n.accurate_submissions + 1) % U32_MOD = n.accurate_submissions + 1 :=
    Nat.mod_eq_of_lt (by simp only [U32_MOD] at *; omega)
  refine ⟨⟨?_, ?_, ?_⟩, ?_, ?_⟩
  · simp [OracleNode.update_reputation, htot]
  · cases was_accurate <;>
      simp [OracleNode.update_reputation, hacc]
  · unfold repInvariant OracleNode.update_reputation OracleNode.calculate_reputation
    cases was_accurate
    · simp only [Bool.false_eq_true, if_false, htot]
      have hm : n.accurate_submissions * 100 % U32_MOD = n.accurate_submissions * 100 :=
        Nat.mod_eq_of_lt (by simp only [U32_MOD] at *; omega)
      simp [hm, Nat.min_comm]
    · simp only [if_true, htot, hacc]
      have hm : (n.accurate_submissions + 1) * 100 % U32_MOD =
          (n.accurate_submissions + 1) * 100 := Nat.mod_eq_of_lt h2
      simp [hm, Nat.min_comm]
  · intro hinv
    unfold OracleNode.slash_stake
    dsimp only
    split <;> simpa [repInvariant] using hinv
  · simp [repInvariant, OracleNode.new, MIN_SUBMISSIONS_FOR_REPUTATION]

/-- Witness for C7 at a concrete node with 11 total and 8 accurate
submissions recording one more accurate outcome. -/
theorem update_reputation_invariant_witness :
    (⟨1, 72, 11, 8, 0, true, 0, 0⟩ : OracleNode).total_submissions + 1 < U32_MOD ∧
    ((⟨1, 72, 11, 8, 0, true, 0, 0⟩ : OracleNode).accurate_submissions + 1) * 100 < U32_MOD ∧
    repInvariant ((⟨1, 72, 11, 8, 0, true, 0, 0⟩ : OracleNode).update_reputation true) :=
  ⟨by decide, by decide,
    (update_reputation_invariant ⟨1, 72, 11, 8, 0, true, 0, 0⟩ true 0 0 0 0
      (by decide) (by decide)).1.2.2⟩

theorem calc_hist_conf_eq (R : List Nat) (new_price : Nat)
    (hpos : ∀ x ∈ R, 1 ≤ x) :
    calculate_historical_confidence R new_price =
      if R.isEmpty then 50
      else
        let mean := R.sum / R.length
        let pct := absDiff new_price mean * 100 / mean
        if pct ≤ 1 then 95
        else if pct ≤ 3 then 90
        else if pct ≤ 5 then 85
        else if pct ≤ 8 then 80
        else if pct ≤ 12 then 75
        else if pct ≤ 18 then 70
        else if pct ≤ 25 then 65
        else if pct ≤ 35 then 60
        else if pct ≤ 50 then 55
        else 50 := by
  unfold calculate_historical_confidence
  by_cases he : R.isEmpty
  · rw [if_pos he, if_pos he]
  · rw [if_neg he, if_neg he]
    dsimp only
    have hne : R ≠ [] := fun hnil => he (List.isEmpty_iff.mpr hnil)
    have hlen : 0 < R.length := List.length_pos.mpr hne
    have havg : 1 ≤ R.sum / R.length :=
      (Nat.le_div_iff_mul_le hlen).mpr (by simpa using length_le_sum_of_one_le R hpos)
    rw [if_neg (by omega : ¬ R.sum / R.length = 0)]

/-- C8: `validate_against_historical_data` always succeeds and returns exactly
the spec-side historical-confidence score of the stored history for the asset:
the step table applied to the percentage deviation of the new price from the
mean of the last-24h valid prices, and 50 when no usable history exists. -/
theorem historical_confidence_matches_spec (now new_price : Nat)
    (asset_symbol : Symbol) (price_history : Symbol → Option (List PriceData)) :
    validate_against_historical_data now new_price asset_symbol price_history =
      Except.ok (specHistoricalConfidence now new_price
        ((price_history asset_symbol).getD [])) := by
  unfold validate_against_historical_data
  cases hh : price_history asset_symbol with
  | none => rfl
  | some history =>
    dsimp only [Option.getD_some]
    by_cases he : history.isEmpty
    · rw [List.isEmpty_iff] at he
      subst he
      rfl
    · rw [if_neg (by simpa using he)]
      by_cases hr : (get_recent_valid_prices now history).isEmpty
      · rw [if_pos hr]
        unfold specHistoricalConfidence
        unfold get_recent_valid_prices at hr
        rw [if_pos hr]
      · rw [if_neg hr]
        rw [calc_hist_conf_eq (get_recent_valid_prices now history) new_price
          (recent_prices_one_le now history)]
        rw [if_neg hr]
        unfold specHistoricalConfidence
        unfold get_recent_valid_prices at hr ⊢
        rw [if_neg hr]

/-- C3: every submission that survives validity/eligibility filtering and
outlier removal comes from a registered node, its weight equals the spec's
`1 × clamp(reputation/10, ≥1) × clamp(confidence/20, ≥1) ×
clamp(stake/1000-unit, 1..5)` formula, that weight is at least 1, and the
submission's price therefore appears at least once in the weighted multiset. -/
theorem surviving_weight_formula (now : Nat) (subs : List PriceData)
    (nodes : NodeMap) (s : PriceData)
    (hs : s ∈ filter_valid_submissions now subs nodes) :
    ∃ n, nodes s.oracle_node = some n ∧
      calculate_node_weight n s = specNodeWeight n s ∧
      1 ≤ calculate_node_weight n s ∧
      s.price ∈ weightedPrices (filter_valid_submissions now subs nodes) nodes := by
  have hmem := mem_remove_outliers hs
  have hpass := (List.mem_filter.mp hmem).2
  unfold submissionPasses at hpass
  obtain ⟨n, hnode⟩ : ∃ n, nodes s.oracle_node = some n := by
    cases hx : nodes s.oracle_node with
    | none => rw [hx] at hpass; simp at hpass
    | some n => exact ⟨n, rfl⟩
  rw [hnode] at hpass
  simp only [Bool.and_eq_true] at hpass
  obtain ⟨⟨hv, _⟩, helig⟩ := hpass
  have hconf : MIN_CONFIDENCE_LEVEL ≤ s.confidence := by
    unfold PriceData.is_valid at hv
    simp only [Bool.and_eq_true, decide_eq_true_eq] at hv
    exact hv.2
  have hrep : MIN_REPUTATION_SCORE ≤ n.reputation_score := by
    unfold OracleNode.is_eligible at helig
    simp only [Bool.and_eq_true, decide_eq_true_eq] at helig
    exact helig.1.2
  simp only [MIN_CONFIDENCE_LEVEL] at hconf
  simp only [MIN_REPUTATION_SCORE] at hrep
  have hrd : 7 ≤ n.reputation_score / 10 :=
    (Nat.le_div_iff_mul_le (by norm_num)).mpr (by omega)
  have hcd : 3 ≤ s.confidence / 20 :=
    (Nat.le_div_iff_mul_le (by norm_num)).mpr (by omega)
  have hstake1 : (1 : Nat) ≤ min (max (n.stake_amount / 10000000000) 1) 5 :=
    le_min (le_max_right _ 1) (by norm_num)
  have heq : calculate_node_weight n s = specNodeWeight n s := by
    unfold calculate_node_weight specNodeWeight
    rw [Nat.max_eq_left (by omega : 1 ≤ n.reputation_score),
      Nat.max_eq_left (by omega : 1 ≤ s.confidence),
      Nat.max_eq_left (by omega : 1 ≤ n.reputation_score / 10),
      Nat.max_eq_left (by omega : 1 ≤ s.confidence / 20)]
  have hw : 1 ≤ calculate_node_weight n s := by
    rw [heq]
    unfold specNodeWeight
    have := Nat.mul_le_mul (Nat.mul_le_mul
      (by omega : 1 ≤ 1 * max (n.reputation_score / 10) 1)
      (by omega : 1 ≤ max (s.confidence / 20) 1)) hstake1
    simpa using this
  refine ⟨n, hnode, heq, hw, ?_⟩
  apply List.mem_flatMap.mpr
  refine ⟨s, hs, ?_⟩
  rw [hnode]
  exact List.mem_replicate.mpr ⟨by omega, rfl⟩

/-- Concrete eligible node used by the witnesses: reputation 70, minimum
stake, active, fresh submission time. -/
def exEligibleNode : OracleNode :=
  { address := 1
    reputation_score := 70
    total_submissions := 0
    accurate_submissions := 0
    last_submission_time := 1000
    is_active := true
    stake_amount := 10000000000
    registered_time := 0 }

/-- Concrete node map binding address 1 to `exEligibleNode`. -/
def exNodes : NodeMap := fun a => if a = 1 then some exEligibleNode else none

/-- Concrete valid, fresh submission from node 1. -/
def exSub : PriceData :=
  { asset_symbol := "XLM"
    price := 100
    timestamp := 1000
    oracle_node := 1
    confidence := 70 }

/-- Concrete submission set of three fresh valid submissions. -/
def exSubs : List PriceData := [exSub, exSub, exSub]

/-- Witness for C3 at the concrete submission `exSub` surviving the filter. -/
theorem surviving_weight_formula_witness :
    exSub ∈ filter_valid_submissions 1000 exSubs exNodes ∧
    ∃ n, exNodes exSub.oracle_node = some n ∧
      calculate_node_weight n exSub = specNodeWeight n exSub ∧
      1 ≤ calculate_node_weight n exSub ∧
      exSub.price ∈ weightedPrices (filter_valid_submissions 1000 exSubs exNodes) exNodes :=
  ⟨by decide, surviving_weight_formula 1000 exSubs exNodes exSub (by decide)⟩

/-- C6: whenever `aggregate_prices` succeeds on a submission set whose
surviving (post-outlier-removal) list has at least 3 entries, the returned
price is at least every lower bound and at most every upper bound of the
surviving prices, i.e. it lies within `[min(prices), max(prices)]` of the
surviving set. -/
theorem aggregate_price_within_bounds (now : Nat) (asset_symbol : Symbol)
    (subs : List PriceData) (nodes : NodeMap) (ap : AggregatedPrice)
    (hok : aggregate_prices now asset_symbol subs nodes = Except.ok ap)
    (h3 : 3 ≤ (filter_valid_submissions now subs nodes).length) :
    (∀ b, (∀ p ∈ filter_valid_submissions now subs nodes, b ≤ p.price) →
      b ≤ ap.price) ∧
    (∀ b, (∀ p ∈ filter_valid_submissions now subs nodes, p.price ≤ b) →
      ap.price ≤ b) := by
  clear h3
  unfold aggregate_prices at hok
  split at hok
  · exact absurd hok (by simp)
  · dsimp only at hok
    split at hok
    · exact absurd hok (by simp)
    · cases hmed : calculate_weighted_median
        (filter_valid_submissions now subs nodes) nodes with
      | error e => rw [hmed] at hok; exact absurd hok (by simp)
      | ok m =>
        rw [hmed] at hok
        dsimp only at hok
        split at hok
        · have hap : ap.price = m := by
            cases hok
            rfl
          have hm_and : m = medianOfSorted (List.insertionSort (· ≤ ·)
                (weightedPrices (filter_valid_submissions now subs nodes) nodes)) ∧
              ¬ (weightedPrices (filter_valid_submissions now subs nodes) nodes).isEmpty = true := by
            unfold calculate_weighted_median at hmed
            dsimp only at hmed
            split at hmed
            · exact absurd hmed (by simp)
            · split at hmed
              · exact absurd hmed (by simp)
              · next hwne => exact ⟨by cases hmed; rfl, hwne⟩
          obtain ⟨hm, hwne⟩ := hm_and
          have hwne2 : weightedPrices (filter_valid_submissions now subs nodes) nodes ≠ [] := by
            intro hnil
            exact hwne (by rw [hnil]; rfl)
          have hperm := List.perm_insertionSort (· ≤ ·)
            (weightedPrices (filter_valid_submissions now subs nodes) nodes)
          have hsne : List.insertionSort (· ≤ ·)
              (weightedPrices (filter_valid_submissions now subs nodes) nodes) ≠ [] := by
            intro hnil
            exact hwne2 (List.length_eq_zero.mp
              (by rw [← hperm.length_eq, hnil]; rfl))
          constructor
          · intro b hb
            rw [hap, hm]
            apply le_medianOfSorted hsne
            intro x hx
            rcases mem_weightedPrices (hperm.mem_iff.mp hx) with ⟨p, hp, rfl⟩
            exact hb p hp
          · intro b hb
            rw [hap, hm]
            apply medianOfSorted_le hsne
            intro x hx
            rcases mem_weightedPrices (hperm.mem_iff.mp hx) with ⟨p, hp, rfl⟩
            exact hb p hp
        · exact absurd hok (by simp)

/-- Aggregate produced by the C6 witness scenario: three weight-21
submissions at price 100 yield weighted median 100, confidence 70 + 10 = 80,
deviation 0. -/
def exAggregated : AggregatedPrice :=
  { asset_symbol := "XLM"
    price := 100
    timestamp := 1000
    num_sources := 3
    confidence := 80
    deviation := 0 }

/-- Witness for C6 at the concrete three-submission scenario. -/
theorem aggregate_price_within_bounds_witness :
    aggregate_prices 1000 "XLM" exSubs exNodes = Except.ok exAggregated ∧
    3 ≤ (filter_valid_submissions 1000 exSubs exNodes).length ∧
    exAggregated.price ≤ 100 :=
  ⟨rfl, by decide,
    (aggregate_price_within_bounds 1000 "XLM" exSubs exNodes exAggregated
      (rfl) (by decide)).2 100 (by decide)⟩

/-- C2 (amended): with the emergency-stop flag set, `register_oracle_node`,
`submit_price`, `get_price` and `get_fallback_price` fail with
`emergency_stop_active` and leave the state unchanged, while
`get_oracle_node_info` and `get_supported_assets` answer from storage as
usual and `deactivate_oracle_node`, gated only by the admin check, still
succeeds for the admin on a registered node. -/
theorem emergency_stop_gates_guarded_ops (now : Nat) (s : ContractState)
    (caller node_address : Address) (registration : NodeRegistration)
    (req : PriceUpdateRequest) (asset : Symbol) (cfg : ContractConfig)
    (hc : s.config = some cfg) (hstop : cfg.emergency_stop = true) :
    registerOracleNode now s registration = (some "emergency_stop_active", s) ∧
    submitPrice now s caller req = (some "emergency_stop_active", s) ∧
    getPrice now s asset = Except.error "emergency_stop_active" ∧
    getFallbackPrice now s asset = Except.error "emergency_stop_active" ∧
    getOracleNodeInfo s node_address = s.oracleNodes node_address ∧
    getSupportedAssets s = s.supportedAssets ∧
    (∀ cfg2 limit, getPriceHistory { s with config := cfg2 } asset limit =
      getPriceHistory s asset limit) ∧
    (∀ n, caller = cfg.admin → s.oracleNodes node_address = some n →
      (deactivateOracleNode s caller node_address).fst = none) := by
  have hgate : checkEmergencyStop s = Except.error "emergency_stop_active" := by
    unfold checkEmergencyStop
    rw [hc]
    simp [hstop]
  refine ⟨?_, ?_, ?_, ?_, rfl, rfl, fun _ _ => rfl, ?_⟩
  · unfold registerOracleNode
    rw [hgate]
  · unfold submitPrice
    rw [hgate]
  · unfold getPrice
    rw [hgate]
  · unfold getFallbackPrice
    rw [hgate]
  · intro n hadmin hnode
    unfold deactivateOracleNode
    have hadm : checkAdmin s caller = Except.ok () := by
      unfold checkAdmin
      rw [hc]
      simp [hadmin]
    rw [hadm]
    unfold deactivate_node
    rw [hnode]

/-- Configuration with the emergency stop engaged, admin address 0. -/
def exStopCfg : ContractConfig :=
  { admin := 0
    emergency_stop := true
    min_oracle_nodes := 3
    price_update_interval := 60 }

/-- State whose emergency stop is set and which holds one registered node at
address 7. -/
def exStopState : ContractState :=
  { config := some exStopCfg
    oracleNodes := fun a => if a = 7 then some (OracleNode.new 0 7 MIN_STAKE_AMOUNT) else none
    rateLimits := fun _ => none
    priceData := fun _ => none
    aggregatedPrices := fun _ => none
    priceHistory := fun _ => none
    supportedAssets := [] }

/-- Counterexample to C2 as stated: with the emergency stop set,
`get_oracle_node_info` still answers with the stored node instead of failing
with `EmergencyStopActive` (its `Option` result has no error channel at all),
and the admin's `deactivate_oracle_node` succeeds. -/
theorem emergency_stop_not_universal :
    exStopState.config = some exStopCfg ∧
    exStopCfg.emergency_stop = true ∧
    getOracleNodeInfo exStopState 7 = some (OracleNode.new 0 7 MIN_STAKE_AMOUNT) ∧
    getSupportedAssets exStopState = [] ∧
    (deactivateOracleNode exStopState 0 7).fst = none :=
  ⟨rfl, rfl, rfl, rfl, rfl⟩

/-- Witness for the amended C2 at the concrete stopped state. -/
theorem emergency_stop_gates_guarded_ops_witness :
    exStopState.config = some exStopCfg ∧
    exStopCfg.emergency_stop = true ∧
    getPrice 0 exStopState "XLM" = Except.error "emergency_stop_active" :=
  ⟨rfl, rfl,
    (emergency_stop_gates_guarded_ops 0 exStopState 0 7
      ⟨7, MIN_STAKE_AMOUNT, "m"⟩ ⟨"XLM", 1, 0, "sig"⟩ "XLM" exStopCfg rfl
      rfl).2.2.1⟩

/-- C9: when `validate_price_update` fails (and the emergency gate passes),
`submit_price` returns exactly that error with the storage state untouched;
conversely the persisted rate-limit map can only change on a submission for
which `validate_price_update` passed every check. -/
theorem validation_failure_no_mutation (now : Nat) (s : ContractState)
    (caller : Address) (req : PriceUpdateRequest) :
    (∀ e, checkEmergencyStop s = Except.ok () →
      validate_price_update now req s.oracleNodes s.rateLimits caller =
        Except.error e →
      submitPrice now s caller req = (some e, s)) ∧
    ((submitPrice now s caller req).snd.rateLimits ≠ s.rateLimits →
      validate_price_update now req s.oracleNodes s.rateLimits caller =
        Except.ok ()) := by
  constructor
  · intro e hgate hval
    unfold submitPrice
    rw [hgate, hval]
  · intro hne
    unfold submitPrice at hne
    cases hgate : checkEmergencyStop s with
    | error e => rw [hgate] at hne; simp at hne
    | ok u =>
      rw [hgate] at hne
      cases hval : validate_price_update now req s.oracleNodes s.rateLimits caller with
      | error e => rw [hval] at hne; simp at hne
      | ok v => cases v; rfl

/-- Configuration with the emergency stop clear, admin address 0. -/
def exRunCfg : ContractConfig :=
  { admin := 0
    emergency_stop := false
    min_oracle_nodes := 3
    price_update_interval := 60 }

/-- Running state with no registered nodes and no stored data. -/
def exEmptyState : ContractState :=
  { config := some exRunCfg
    oracleNodes := fun _ => none
    rateLimits := fun _ => none
    priceData := fun _ => none
    aggregatedPrices := fun _ => none
    priceHistory := fun _ => none
    supportedAssets := [] }

/-- Witness for C9: submitting from an unregistered node fails with
`unregistered_node` and returns the state unchanged. -/
theorem validation_failure_no_mutation_witness :
    checkEmergencyStop exEmptyState = Except.ok () ∧
    validate_price_update 1000 ⟨"XLM", 100, 1000, "sig"⟩ exEmptyState.oracleNodes
      exEmptyState.rateLimits 7 = Except.error "unregistered_node" ∧
    submitPrice 1000 exEmptyState 7 ⟨"XLM", 100, 1000, "sig"⟩ =
      (some "unregistered_node", exEmptyState) :=
  ⟨rfl, rfl,
    (validation_failure_no_mutation 1000 exEmptyState 7
      ⟨"XLM", 100, 1000, "sig"⟩).1 "unregistered_node" rfl rfl⟩

theorem validate_hist_conf50 (now new_price : Nat) (asset : Symbol)
    (l : List PriceData) (h : allConf50 l) :
    validate_against_historical_data now new_price asset
      (fun sym => if sym = asset then some l else none) = Except.ok 50 := by
  unfold validate_against_historical_data
  have hmap : (fun sym : Symbol => if sym = asset then some l else none) asset = some l := by
    simp
  rw [hmap]
  by_cases he : l.isEmpty
  · rw [List.isEmpty_iff] at he
    subst he
    rfl
  · dsimp only
    rw [if_neg he, recent_valid_nil_of_conf50 now l h]
    rfl

theorem conf50_after_store (now : Nat) (stored : List PriceData) (pd : PriceData)
    (hinv : allConf50 stored) (hpd : pd.confidence = 50) :
    allConf50 (cleanup_old_price_data now (stored ++ [pd])) := by
  intro p hp
  unfold cleanup_old_price_data at hp
  have hp2 := (List.mem_filter.mp hp).1
  rcases List.mem_append.mp hp2 with h1 | h2
  · exact hinv p h1
  · have : p = pd := by simpa using h2
    subst this
    exact hpd

/-- C1: if every stored submission for the asset carries confidence 50 (in
particular for an asset with no stored history at all), then `submit_price`
again stores only confidence-50 records for that asset; every all-50
submission set is emptied by `filter_valid_submissions` (50 is below
`MIN_CONFIDENCE_LEVEL`), so `aggregate_prices` on any nonempty such set
returns the `no_valid_submissions` error. -/
theorem default_confidence_invariant (now : Nat) (s : ContractState)
    (caller : Address) (req : PriceUpdateRequest)
    (hinv : allConf50 ((s.priceData req.asset_symbol).getD [])) :
    allConf50 (((submitPrice now s caller req).snd.priceData req.asset_symbol).getD []) ∧
    (∀ subs nodes2, allConf50 subs → filter_valid_submissions now subs nodes2 = []) ∧
    (∀ subs nodes2 asset, allConf50 subs → subs ≠ [] →
      aggregate_prices now asset subs nodes2 = Except.error "no_valid_submissions") := by
  refine ⟨?_, fun subs nodes2 h => filter_valid_nil_of_conf50 now subs nodes2 h, ?_⟩
  · have hstore : ∀ rl2 : RateLimitMap,
        allConf50 (((submitPriceStore now s caller req rl2).snd.priceData
          req.asset_symbol).getD []) := by
      intro rl2
      have hval := validate_hist_conf50 now req.price req.asset_symbol
        ((s.priceData req.asset_symbol).getD []) hinv
      unfold submitPriceStore
      dsimp only
      rw [hval, tryAggregate_priceData]
      dsimp only
      rw [if_pos rfl]
      dsimp only [Option.getD_some]
      exact conf50_after_store now _ _ hinv rfl
    unfold submitPrice
    cases hgate : checkEmergencyStop s with
    | error e => exact hinv
    | ok u =>
      cases hval2 : validate_price_update now req s.oracleNodes s.rateLimits caller with
      | error e => exact hinv
      | ok v =>
        cases hrl : s.rateLimits caller with
        | none => exact hstore s.rateLimits
        | some rl =>
          dsimp only
          cases hout : rl.record_submission now with
          | mk b r2 =>
            cases b
            · exact hinv
            · exact hstore (fun a => if a = caller then some r2 else s.rateLimits a)
  · intro subs nodes2 asset h hne
    unfold aggregate_prices
    rw [if_neg (by simpa using hne)]
    dsimp only
    rw [filter_valid_nil_of_conf50 now subs nodes2 h]
    rfl

/-- Stored confidence-50 submission used by the C1 witness. -/
def exConf50Sub : PriceData :=
  { asset_symbol := "XLM"
    price := 100
    timestamp := 900
    oracle_node := 1
    confidence := 50 }

/-- Running state whose stored submissions for `"XLM"` all carry
confidence 50. -/
def exConf50State : ContractState :=
  { config := some exRunCfg
    oracleNodes := exNodes
    rateLimits := fun _ => none
    priceData := fun sym => if sym = "XLM" then some [exConf50Sub] else none
    aggregatedPrices := fun _ => none
    priceHistory := fun _ => none
    supportedAssets := [] }

/-- Witness for C1 at the concrete confidence-50 state. -/
theorem default_confidence_invariant_witness :
    allConf50 ((exConf50State.priceData "XLM").getD []) ∧
    allConf50 (((submitPrice 1000 exConf50State 1
      ⟨"XLM", 100, 1000, "s"⟩).snd.priceData "XLM").getD []) :=
  ⟨by unfold allConf50; decide,
   (default_confidence_invariant 1000 exConf50State 1 ⟨"XLM", 100, 1000, "s"⟩
     (by unfold allConf50; decide)).1⟩

end PriceOracle
